import Mathlib

/-!
Shallow embedding of the SMB ICP Segment Visualizer (`src/app.py`).

The program is a pandas/streamlit dashboard.  We embed its data
operations: a record set (`DataFrame`) is a column list plus rows of
column-name/value pairs; cells are strings, integers or missing
(pandas `NaN`).  Python/pandas operations that can raise are embedded
as `Except String`; the error string stands for the exception.
-/

namespace ICP

/-- A scalar cell of the record set: a string, a number, or missing
(pandas `NaN` / `None`). -/
inductive Value where
  | vstr : String → Value
  | vnum : Int → Value
  | vnull : Value
deriving DecidableEq

/-- A row: an association list from column name to cell value. -/
abbrev Row := List (String × Value)

/-- Cell lookup in a row.  A column present in `DataFrame.cols` is
present in every row; for modelling convenience a missing key reads as
`vnull`. -/
def Row.get (r : Row) (c : String) : Value :=
  match r.find? (fun p => p.1 == c) with
  | some p => p.2
  | none => Value.vnull

/-- Column assignment (`df[c] = v` at row level): replaces any binding
of `c` and appends the new one. -/
def Row.set (r : Row) (c : String) (v : Value) : Row :=
  r.filter (fun p => p.1 ≠ c) ++ [(c, v)]

/-- A record set: the column names and the ordered rows. -/
structure DataFrame where
  cols : List String
  rows : List Row
deriving DecidableEq

/-- `pd.DataFrame()` — the empty record set. -/
def emptyDF : DataFrame := ⟨[], []⟩

/-- The values of one column, in row order (`df[c]`). -/
def colVals (df : DataFrame) (c : String) : List Value :=
  df.rows.map (fun r => Row.get r c)

/-- Python `needle in hay` on strings: substring containment. -/
def pyIn (needle hay : String) : Bool :=
  decide (needle.data <:+: hay.data)

/-- Python's `str.split(",")` on a character list: split at every
comma, keeping empty segments. -/
def splitCommaAux : List Char → List (List Char)
  | [] => [[]]
  | c :: cs =>
    match splitCommaAux cs with
    | [] => [[]]
    | t :: ts => if c = ',' then [] :: t :: ts else (c :: t) :: ts

/-- Python's `s.split(",")`. -/
def splitComma (s : String) : List String :=
  (splitCommaAux s.data).map (fun l => ⟨l⟩)

/-- Strip whitespace from both ends of a character list. -/
def trimChars (l : List Char) : List Char :=
  ((l.dropWhile Char.isWhitespace).reverse.dropWhile Char.isWhitespace).reverse

/-- Python's `s.strip()`. -/
def pyStrip (s : String) : String := ⟨trimChars s.data⟩

/-- `series.dropna().astype(str)`: drop missing cells, render the
remaining cells as strings (numbers via their decimal form). -/
def dropnaStr (xs : List Value) : List String :=
  xs.filterMap (fun x =>
    match x with
    | Value.vstr s => some s
    | Value.vnum n => some (toString n)
    | Value.vnull => none)

/-- Lexicographic comparison of character lists by code point, the
order Python uses on strings. -/
def strLeChars : List Char → List Char → Bool
  | [], _ => true
  | _ :: _, [] => false
  | a :: as, b :: bs =>
    if a.toNat < b.toNat then true
    else if b.toNat < a.toNat then false
    else strLeChars as bs

/-- Python string comparison `a <= b`. -/
def strLe (a b : String) : Bool := strLeChars a.data b.data

/-- Ascending sort of strings (Python `sorted`). -/
def sortedStrings (l : List String) : List String :=
  l.insertionSort (fun a b => strLe a b = true)

/-- Ascending sort of integers (Python/pandas ascending order). -/
def sortedInts (l : List Int) : List Int :=
  l.insertionSort (fun a b => a ≤ b)

/-- `app.py` lines 44–50: vocabulary of a multi-valued column —
`sorted(set(tok.strip() for cell in df[col].dropna().astype(str)
for tok in cell.split(",")))` when the column is present, else `[]`. -/
def multiVocab (df : DataFrame) (col : String) : List String :=
  if col ∈ df.cols then
    sortedStrings ((((dropnaStr (colVals df col)).flatMap splitComma).map pyStrip).dedup)
  else []

/-- `app.py` line 44: `unique_roles`. -/
def unique_roles (df : DataFrame) : List String := multiVocab df "cleaned_roles"

/-- `app.py` line 48: `unique_industries`. -/
def unique_industries (df : DataFrame) : List String := multiVocab df "gpt_industry"

/-- `app.py` lines 52–54: vocabulary of a single-valued column —
`sorted(df[col].dropna().astype(str).unique())` when present, else `[]`. -/
def singleVocab (df : DataFrame) (col : String) : List String :=
  if col ∈ df.cols then sortedStrings ((dropnaStr (colVals df col)).dedup) else []

/-- `app.py` line 52: `unique_locations`. -/
def unique_locations (df : DataFrame) : List String := singleVocab df "location_clean"

/-- `app.py` line 53: `unique_states`. -/
def unique_states (df : DataFrame) : List String := singleVocab df "state"

/-- `app.py` line 54: `unique_cities`. -/
def unique_cities (df : DataFrame) : List String := singleVocab df "city"

/-- The user's multiselect choices (`app.py` lines 56–60). -/
structure Selection where
  roles : List String
  industries : List String
  locations : List String
  states : List String
  cities : List String
deriving DecidableEq

/-- The selection with every dimension empty. -/
def emptySel : Selection := ⟨[], [], [], [], []⟩

/-- `app.py` line 67 body: `isinstance(x, str) and any(role in x for
role in selected_roles)`. -/
def roleKeep (sel : List String) (x : Value) : Bool :=
  match x with
  | Value.vstr s => sel.any (fun role => pyIn role s)
  | _ => false

/-- `app.py` lines 65–68: the role filter.  When the selection is
non-empty the code reads `filtered_df["cleaned_roles"]`, which raises
`KeyError` if that column is absent. -/
def applyRoleFilter (df : DataFrame) (sel : List String) : Except String DataFrame :=
  if sel = [] then .ok df
  else if "cleaned_roles" ∈ df.cols then
    .ok ⟨df.cols, df.rows.filter (fun r => roleKeep sel (Row.get r "cleaned_roles"))⟩
  else .error "KeyError: cleaned_roles"

/-- `series.isin(sel)` on one cell: exact membership of the raw cell;
non-string and missing cells are never in a list of strings. -/
def isinKeep (sel : List String) (x : Value) : Bool :=
  match x with
  | Value.vstr s => sel.contains s
  | _ => false

/-- `app.py` lines 69–76: one `filtered_df[filtered_df[col].isin(sel)]`
step.  Reading an absent column raises `KeyError`. -/
def applyIsinFilter (col : String) (df : DataFrame) (sel : List String) :
    Except String DataFrame :=
  if sel = [] then .ok df
  else if col ∈ df.cols then
    .ok ⟨df.cols, df.rows.filter (fun r => isinKeep sel (Row.get r col))⟩
  else .error ("KeyError: " ++ col)

/-- `app.py` lines 63–76: the whole filtering block, starting from
`filtered_df = df.copy()` and applying the five guarded filters in
order. -/
def filtered_df (df : DataFrame) (sel : Selection) : Except String DataFrame := do
  let d1 ← applyRoleFilter df sel.roles
  let d2 ← applyIsinFilter "gpt_industry" d1 sel.industries
  let d3 ← applyIsinFilter "location_clean" d2 sel.locations
  let d4 ← applyIsinFilter "state" d3 sel.states
  applyIsinFilter "city" d4 sel.cities

/-- `app.py` lines 79–80: drop `industries_clean` when present. -/
def dropIndustriesClean (df : DataFrame) : DataFrame :=
  if "industries_clean" ∈ df.cols then
    ⟨df.cols.filter (fun c => c ≠ "industries_clean"),
     df.rows.map (fun r => r.filter (fun p => p.1 ≠ "industries_clean"))⟩
  else df

/-- `app.py` line 85 lambda: `x if pd.notna(x) and x.startswith("http")
else ""`.  On a non-missing non-string cell, `x.startswith` raises
`AttributeError`. -/
def pcLinkVal (x : Value) : Except String Value :=
  match x with
  | Value.vnull => .ok (Value.vstr "")
  | Value.vstr s => .ok (Value.vstr (if s.startsWith "http" then s else ""))
  | Value.vnum _ => .error "AttributeError: object has no attribute startswith"

/-- The spec's words for the `PC Link` value: the cell when it is
non-missing and starts with `http`, else the empty string. -/
def pcLinkPure (x : Value) : Value :=
  match x with
  | Value.vstr s => Value.vstr (if s.startsWith "http" then s else "")
  | _ => Value.vstr ""

/-- One row of the `PC Link` derivation: compute the new cell, drop the
`PC URL` binding, bind `PC Link`. -/
def pcLinkRow (r : Row) : Except String Row := do
  let v ← pcLinkVal (Row.get r "PC URL")
  pure (Row.set (r.filter (fun p => p.1 ≠ "PC URL")) "PC Link" v)

/-- `series.apply` of the `PC Link` lambda over the rows: values are
computed row by row and the first exception aborts. -/
def mapRowsPC : List Row → Except String (List Row)
  | [] => .ok []
  | r :: rs => do
    let r' ← pcLinkRow r
    let rs' ← mapRowsPC rs
    pure (r' :: rs')

/-- `true` unless the cell is a non-missing non-string value. -/
def notNum : Value → Bool
  | Value.vnum _ => false
  | _ => true

/-- `app.py` lines 83–87: when `PC URL` is present, derive the
`PC Link` column (appended unless it already exists) and drop
`PC URL`. -/
def formatPCLink (df : DataFrame) : Except String DataFrame :=
  if "PC URL" ∈ df.cols then do
    let rows ← mapRowsPC df.rows
    pure ⟨((if "PC Link" ∈ df.cols then df.cols else df.cols ++ ["PC Link"]).filter
            (fun c => c ≠ "PC URL")), rows⟩
  else .ok df

/-- Truncation toward zero of a rational, Python's `int(float)`. -/
def ratTrunc (q : Rat) : Int := q.num.tdiv q.den

/-- `series.mean()` over the non-missing numeric cells: `NaN` (here
`none`) when there are none. -/
def seriesMean (xs : List Int) : Option Rat :=
  if xs.length = 0 then none else some (mkRat xs.sum xs.length)

/-- `series.median()`: middle of the sorted values, or the average of
the two middles; `NaN` (`none`) when empty. -/
def seriesMedian (xs : List Int) : Option Rat :=
  let s := sortedInts xs
  let n := s.length
  if n = 0 then none
  else if n % 2 = 1 then some (mkRat (s.getD (n / 2) 0) 1)
  else some (mkRat (s.getD (n / 2 - 1) 0 + s.getD (n / 2) 0) 2)

/-- Python's `int(x)` applied to a possibly-`NaN` float: raises
`ValueError` on `NaN`, truncates toward zero otherwise. -/
def pyInt (q : Option Rat) : Except String Int :=
  match q with
  | none => .error "ValueError: cannot convert float NaN to integer"
  | some q => .ok (ratTrunc q)

/-- `series.mode()`: the most frequent values, ascending; empty for an
empty series. -/
def modeList (xs : List Int) : List Int :=
  let d := sortedInts xs.dedup
  let m := (d.map (fun v => xs.count v)).foldr max 0
  d.filter (fun v => xs.count v = m)

/-- `series.value_counts().sort_index()`: count per distinct value,
ordered by value ascending. -/
def valueCountsSorted (xs : List Int) : List (Int × Nat) :=
  (sortedInts xs.dedup).map (fun v => (v, xs.count v))

/-- The outputs of the pool-size summary block. -/
structure PoolSummary where
  meanPS : Int
  medianPS : Int
  modePS : Option Int
  freq : List (Int × Nat)
deriving DecidableEq

/-- The non-missing numeric cells of a column, in row order. -/
def numCells (df : DataFrame) (col : String) : List Int :=
  df.rows.filterMap (fun r =>
    match Row.get r col with
    | Value.vnum n => some n
    | _ => none)

/-- `app.py` lines 104–111: when `pool_size` is present, write
`int(mean)`, `int(median)`, the first mode when any exists, and the
value-count bar chart; `none` when the column is absent. -/
def poolSizeSummary (df : DataFrame) : Except String (Option PoolSummary) :=
  if "pool_size" ∈ df.cols then do
    let xs := numCells df "pool_size"
    let m ← pyInt (seriesMean xs)
    let md ← pyInt (seriesMedian xs)
    pure (some ⟨m, md, (modeList xs).head?, valueCountsSorted xs⟩)
  else .ok none

/-- Where the data comes from: an uploaded file's contents, or the
configured default path (`app.py` lines 23–30). -/
inductive LoadSource where
  | upload : String → LoadSource
  | defaultPath : String → LoadSource

/-- `app.py` lines 6–12: `load_data` wraps `pd.read_csv` in
`try/except`, returning an empty record set plus an error message on
failure.  `parse` stands for `pd.read_csv`. -/
def load_data (parse : String → Except String DataFrame) (p : String) :
    DataFrame × Option String :=
  match parse p with
  | .ok d => (d, none)
  | .error e => (emptyDF, some ("Error loading default file: " ++ e))

/-- `app.py` lines 25–30: the load step.  The uploaded-file branch
calls `pd.read_csv(uploaded_file)` with no `try/except`, so a parse
error propagates; the default-path branch goes through `load_data`. -/
def loadStep (parse : String → Except String DataFrame) :
    LoadSource → Except String (DataFrame × Option String)
  | LoadSource.upload f => (parse f).map (fun d => (d, none))
  | LoadSource.defaultPath p => .ok (load_data parse p)

/-- A `read_csv` behaviour that fails on every input, standing for a
malformed CSV. -/
def badParse : String → Except String DataFrame :=
  fun _ => .error "ParserError: malformed CSV"

/-- `Except` success test. -/
def exceptOk {ε α : Type} : Except ε α → Bool
  | .ok _ => true
  | .error _ => false

/-- The raw record set and the working copy the dashboard mutates
(`df` and `filtered_df` in `app.py`). -/
structure AppState where
  raw : DataFrame
  working : DataFrame
deriving DecidableEq

/-- `app.py` line 63: `filtered_df = df.copy()`. -/
def copyStep (s : AppState) : AppState := { s with working := s.raw }

/-- `app.py` lines 65–76 as a state step: filter the working copy. -/
def filterStep (sel : Selection) (s : AppState) : Except String AppState :=
  (filtered_df s.working sel).map (fun d => { s with working := d })

/-- `app.py` lines 79–87 as a state step: drop `industries_clean` and
derive `PC Link` on the working copy. -/
def projectStep (s : AppState) : Except String AppState :=
  (formatPCLink (dropIndustriesClean s.working)).map (fun d => { s with working := d })

/-- `app.py` line 97 as a state step: sort the working copy's rows.
`impl` stands for the sorting algorithm `sort_values` uses (its default
`kind` leaves the algorithm to the library). -/
def sortStep (impl : String → Bool → List Row → List Row)
    (col : String) (asc : Bool) (s : AppState) : Except String AppState :=
  .ok { s with working := ⟨s.working.cols, impl col asc s.working.rows⟩ }

/-- `app.py` lines 63–97: copy, filter, project, sort. -/
def runPipeline (impl : String → Bool → List Row → List Row)
    (df : DataFrame) (sel : Selection) (col : String) (asc : Bool) :
    Except String AppState := do
  let s1 ← filterStep sel (copyStep ⟨df, df⟩)
  let s2 ← projectStep s1
  sortStep impl col asc s2

/-- Ordering of cells as sort keys (ascending); missing cells are
placed after any value, as with `na_position='last'`. -/
def valueLE (a b : Value) : Bool :=
  match a, b with
  | Value.vnum m, Value.vnum n => decide (m ≤ n)
  | Value.vstr s, Value.vstr t => decide (s ≤ t)
  | Value.vnull, _ => false
  | _, Value.vnull => true
  | _, _ => true

/-- Row comparison used by `sort_values(by=col, ascending=asc)`. -/
def rowLE (col : String) (asc : Bool) (r1 r2 : Row) : Bool :=
  if asc then valueLE (Row.get r1 col) (Row.get r2 col)
  else valueLE (Row.get r2 col) (Row.get r1 col)

/-- Consecutive rows of a list are in `le` order. -/
def chainedLE (le : Row → Row → Bool) : List Row → Bool
  | [] => true
  | [_] => true
  | a :: b :: rs => le a b && chainedLE le (b :: rs)

/-- What pandas documents about the output of `sort_values` with its
default `kind='quicksort'`: a permutation of the input whose
consecutive rows are in key order.  Stability is not part of this
contract. -/
def sortOutputOK (le : Row → Row → Bool) (input output : List Row) : Prop :=
  input.Perm output ∧ chainedLE le output = true

/-- The boolean predicate equivalent to the role-filter step: `true`
when the selection is empty or the row passes. -/
def rolePred (sel : List String) (r : Row) : Bool :=
  sel.isEmpty || roleKeep sel (Row.get r "cleaned_roles")

/-- The boolean predicate equivalent to one `isin` filter step. -/
def isinPred (col : String) (sel : List String) (r : Row) : Bool :=
  sel.isEmpty || isinKeep sel (Row.get r col)

/-- The conjunction of the five filter predicates, in application
order. -/
def selPred (sel : Selection) (r : Row) : Bool :=
  isinPred "city" sel.cities r &&
    (isinPred "state" sel.states r &&
      (isinPred "location_clean" sel.locations r &&
        (isinPred "gpt_industry" sel.industries r && rolePred sel.roles r)))

/-- The spec's words for the multi-valued vocabulary: distinct
NON-empty trimmed tokens, sorted (claim C5's statement, for comparison
with `multiVocab` translated from the code). -/
def specMultiVocab (df : DataFrame) (col : String) : List String :=
  if col ∈ df.cols then
    sortedStrings
      (((((dropnaStr (colVals df col)).flatMap splitComma).map pyStrip).filter
          (fun t => t ≠ "")).dedup)
  else []

/-- One-column record set holding the spec's role example. -/
def demoRoleDF : DataFrame :=
  ⟨["cleaned_roles"], [[("cleaned_roles", Value.vstr "Senior Manager, Ops")]]⟩

/-- A record set whose single `cleaned_roles` cell has a trailing
comma, producing an empty token. -/
def demoTrailingComma : DataFrame :=
  ⟨["cleaned_roles"], [[("cleaned_roles", Value.vstr "Tech,")]]⟩

/-- Two records distinguished by role, for the monotonicity
counterexample. -/
def demoTwoRoles : DataFrame :=
  ⟨["cleaned_roles"],
   [[("cleaned_roles", Value.vstr "Manager")],
    [("cleaned_roles", Value.vstr "Engineer")]]⟩

/-- Selection of the single role `Manager`. -/
def selManager : Selection := ⟨["Manager"], [], [], [], []⟩

/-- Selection of both roles `Manager` and `Engineer`. -/
def selManagerEngineer : Selection := ⟨["Manager", "Engineer"], [], [], [], []⟩

/-- A record set without a `cleaned_roles` column. -/
def demoNoRolesCol : DataFrame :=
  ⟨["state"], [[("state", Value.vstr "TX")]]⟩

/-- A record set whose `gpt_industry` cell is the multi-token value
`"Tech, Retail"`. -/
def demoMultiIndustry : DataFrame :=
  ⟨["gpt_industry"], [[("gpt_industry", Value.vstr "Tech, Retail")]]⟩

/-- The multi-token industry row itself. -/
def demoMultiIndustryRow : Row := [("gpt_industry", Value.vstr "Tech, Retail")]

/-- A record set whose `PC URL` cell is numeric. -/
def demoNumURL : DataFrame :=
  ⟨["PC URL"], [[("PC URL", Value.vnum 5)]]⟩

/-- A record set with string and missing `PC URL` cells. -/
def demoStrURL : DataFrame :=
  ⟨["name", "PC URL"],
   [[("name", Value.vstr "a"), ("PC URL", Value.vstr "http://x.example")],
    [("name", Value.vstr "b"), ("PC URL", Value.vstr "ftp://y.example")],
    [("name", Value.vstr "c"), ("PC URL", Value.vnull)]]⟩

/-- A one-row record set with a numeric `pool_size`. -/
def demoPool : DataFrame := ⟨["pool_size"], [[("pool_size", Value.vnum 5)]]⟩

/-- A `pool_size` column with zero rows, as produced by a filter that
matches nothing. -/
def demoEmptyPool : DataFrame := ⟨["pool_size"], []⟩

/-- A sorting algorithm that returns its input unchanged; it satisfies
the sort contract on already-ordered input. -/
def identityImpl : String → Bool → List Row → List Row := fun _ _ rs => rs

/-- Three rows with identical `pool_size` keys and distinct ids. -/
def demoTied : List Row :=
  [[("id", Value.vnum 1), ("pool_size", Value.vnum 5)],
   [("id", Value.vnum 2), ("pool_size", Value.vnum 5)],
   [("id", Value.vnum 3), ("pool_size", Value.vnum 5)]]

/-- The tied rows with the first two swapped. -/
def demoTiedSwapped : List Row :=
  [[("id", Value.vnum 2), ("pool_size", Value.vnum 5)],
   [("id", Value.vnum 1), ("pool_size", Value.vnum 5)],
   [("id", Value.vnum 3), ("pool_size", Value.vnum 5)]]

theorem exceptBindOk {ε α β : Type} (a : α) (f : α → Except ε β) :
    (Except.ok a >>= f : Except ε β) = f a := rfl

theorem exceptBindError {ε α β : Type} (e : ε) (f : α → Except ε β) :
    (Except.error e >>= f : Except ε β) = Except.error e := rfl

theorem applyRoleFilter_ok {df d : DataFrame} {sel : List String}
    (h : applyRoleFilter df sel = .ok d) :
    d.cols = df.cols ∧ d.rows = df.rows.filter (rolePred sel) := by
  unfold applyRoleFilter at h
  by_cases hs : sel = []
  · subst hs
    rw [if_pos rfl] at h
    injection h with h
    subst h
    exact ⟨rfl, (List.filter_eq_self.mpr (fun a _ => rfl)).symm⟩
  · rw [if_neg hs] at h
    by_cases hc : "cleaned_roles" ∈ df.cols
    · rw [if_pos hc] at h
      injection h with h
      subst h
      refine ⟨rfl, ?_⟩
      cases sel with
      | nil => exact absurd rfl hs
      | cons a l => rfl
    · rw [if_neg hc] at h
      exact Except.noConfusion h

theorem applyIsinFilter_ok {col : String} {df d : DataFrame} {sel : List String}
    (h : applyIsinFilter col df sel = .ok d) :
    d.cols = df.cols ∧ d.rows = df.rows.filter (isinPred col sel) := by
  unfold applyIsinFilter at h
  by_cases hs : sel = []
  · subst hs
    rw [if_pos rfl] at h
    injection h with h
    subst h
    exact ⟨rfl, (List.filter_eq_self.mpr (fun a _ => rfl)).symm⟩
  · rw [if_neg hs] at h
    by_cases hc : col ∈ df.cols
    · rw [if_pos hc] at h
      injection h with h
      subst h
      refine ⟨rfl, ?_⟩
      cases sel with
      | nil => exact absurd rfl hs
      | cons a l => rfl
    · rw [if_neg hc] at h
      exact Except.noConfusion h

theorem filtered_df_ok {df d : DataFrame} {sel : Selection}
    (h : filtered_df df sel = .ok d) :
    d.cols = df.cols ∧ d.rows = df.rows.filter (selPred sel) := by
  unfold filtered_df at h
  cases h1 : applyRoleFilter df sel.roles with
  | error e => rw [h1] at h; exact Except.noConfusion h
  | ok d1 =>
  rw [h1] at h
  rw [exceptBindOk] at h
  cases h2 : applyIsinFilter "gpt_industry" d1 sel.industries with
  | error e => rw [h2] at h; exact Except.noConfusion h
  | ok d2 =>
  rw [h2] at h
  rw [exceptBindOk] at h
  cases h3 : applyIsinFilter "location_clean" d2 sel.locations with
  | error e => rw [h3] at h; exact Except.noConfusion h
  | ok d3 =>
  rw [h3] at h
  rw [exceptBindOk] at h
  cases h4 : applyIsinFilter "state" d3 sel.states with
  | error e => rw [h4] at h; exact Except.noConfusion h
  | ok d4 =>
  rw [h4] at h
  rw [exceptBindOk] at h
  obtain ⟨c1, r1⟩ := applyRoleFilter_ok h1
  obtain ⟨c2, r2⟩ := applyIsinFilter_ok h2
  obtain ⟨c3, r3⟩ := applyIsinFilter_ok h3
  obtain ⟨c4, r4⟩ := applyIsinFilter_ok h4
  obtain ⟨c5, r5⟩ := applyIsinFilter_ok h
  refine ⟨by rw [c5, c4, c3, c2, c1], ?_⟩
  rw [r5, r4, r3, r2, r1]
  simp only [List.filter_filter]
  rfl

/-- C1: role filtering keeps exactly the rows whose `cleaned_roles`
cell is a non-missing string containing at least one selected role
token as a substring (for any record set with the column and any
non-empty selection). -/
theorem C1_role_filter_semantics (df : DataFrame) (sel : List String)
    (hsel : sel ≠ []) (hcol : "cleaned_roles" ∈ df.cols) :
    applyRoleFilter df sel =
      .ok ⟨df.cols, df.rows.filter (fun r => roleKeep sel (Row.get r "cleaned_roles"))⟩ ∧
    ∀ v : Value, roleKeep sel v = true ↔
      ∃ s : String, v = Value.vstr s ∧ ∃ t ∈ sel, t.data <:+: s.data := by
  constructor
  · unfold applyRoleFilter
    rw [if_neg hsel, if_pos hcol]
  · intro v
    cases v with
    | vstr s =>
      simp only [roleKeep, pyIn, List.any_eq_true, decide_eq_true_eq]
      constructor
      · rintro ⟨t, ht, hsub⟩
        exact ⟨s, rfl, t, ht, hsub⟩
      · rintro ⟨s', hs', t, ht, hsub⟩
        cases hs'
        exact ⟨t, ht, hsub⟩
    | vnum n =>
      simp [roleKeep]
    | vnull =>
      simp [roleKeep]

/-- C1 witness: the spec's example — a row with `cleaned_roles`
`"Senior Manager, Ops"` passes the role filter when `"Manager"` is
selected. -/
theorem C1_witness :
    (["Manager"] ≠ ([] : List String)) ∧ "cleaned_roles" ∈ demoRoleDF.cols ∧
    (applyRoleFilter demoRoleDF ["Manager"] =
       .ok ⟨demoRoleDF.cols, demoRoleDF.rows.filter
         (fun r => roleKeep ["Manager"] (Row.get r "cleaned_roles"))⟩ ∧
     ∀ v : Value, roleKeep ["Manager"] v = true ↔
       ∃ s : String, v = Value.vstr s ∧ ∃ t ∈ ["Manager"], t.data <:+: s.data) ∧
    roleKeep ["Manager"] (Value.vstr "Senior Manager, Ops") = true :=
  ⟨by decide, by decide,
   C1_role_filter_semantics demoRoleDF ["Manager"] (by decide) (by decide),
   by decide⟩

/-- C2: the sort the code performs (`sort_values` with its default
`kind`) only promises a key-ordered permutation; on a concrete input
of tied keys both the order-preserving output and a tie-swapping
output satisfy that contract, so the call does not guarantee the
stability the claim asserts. -/
theorem C2_contract_underdetermined :
    sortOutputOK (rowLE "pool_size" true) demoTied demoTied ∧
    sortOutputOK (rowLE "pool_size" true) demoTied demoTiedSwapped ∧
    demoTiedSwapped ≠ demoTied := by
  refine ⟨⟨List.isPerm_iff.mp (by decide), by decide⟩,
         ⟨List.isPerm_iff.mp (by decide), by decide⟩, by decide⟩

/-- C3 counterexample: a malformed uploaded file makes the load step
propagate the parse exception (`app.py` line 26 has no `try/except`),
instead of returning an empty record set with a message. -/
theorem C3_counterexample :
    loadStep badParse (LoadSource.upload "pool_size\nbad") =
      Except.error "ParserError: malformed CSV" := rfl

/-- C3 (amended): the default-path loader `load_data` never throws —
for every parse behaviour it returns a result, and on parse failure
that result is the empty record set plus a human-readable message. -/
theorem C3_default_path_never_throws (parse : String → Except String DataFrame)
    (p : String) :
    exceptOk (loadStep parse (LoadSource.defaultPath p)) = true ∧
    (∀ e, parse p = .error e →
      loadStep parse (LoadSource.defaultPath p) =
        .ok (emptyDF, some ("Error loading default file: " ++ e))) := by
  constructor
  · rfl
  · intro e he
    have hld : load_data parse p =
        (emptyDF, some ("Error loading default file: " ++ e)) := by
      unfold load_data
      rw [he]
    show Except.ok (load_data parse p) =
      Except.ok (emptyDF, some ("Error loading default file: " ++ e))
    rw [hld]

/-- C3 witness: with an always-failing parser on the default path, the
loader returns the empty record set and the error message. -/
theorem C3_witness :
    exceptOk (loadStep badParse (LoadSource.defaultPath "icp_segments_final.csv")) = true ∧
    loadStep badParse (LoadSource.defaultPath "icp_segments_final.csv") =
      .ok (emptyDF, some "Error loading default file: ParserError: malformed CSV") :=
  ⟨(C3_default_path_never_throws badParse "icp_segments_final.csv").1,
   (C3_default_path_never_throws badParse "icp_segments_final.csv").2
     "ParserError: malformed CSV" rfl⟩

/-- C4: code bug — with `pool_size` present but holding no non-missing
numeric value (zero rows after filtering), the summary computes
`int(mean)` of an all-`NaN` series and raises `ValueError`; a
non-empty column summarises normally. -/
theorem C4_empty_pool_raises :
    poolSizeSummary demoEmptyPool =
      .error "ValueError: cannot convert float NaN to integer" ∧
    poolSizeSummary demoPool = .ok (some ⟨5, 5, some 5, [(5, 1)]⟩) :=
  ⟨rfl, rfl⟩

theorem multiVocab_absent {df : DataFrame} {col : String} (h : col ∉ df.cols) :
    multiVocab df col = [] := by
  unfold multiVocab
  rw [if_neg h]

theorem singleVocab_absent {df : DataFrame} {col : String} (h : col ∉ df.cols) :
    singleVocab df col = [] := by
  unfold singleVocab
  rw [if_neg h]

theorem sub_nil_eq_nil {sel voc : List String} (hsub : ∀ t ∈ sel, t ∈ voc)
    (hvoc : voc = []) : sel = [] := by
  cases sel with
  | nil => rfl
  | cons a l =>
    subst hvoc
    exact absurd (hsub a (List.mem_cons_self a l)) (List.not_mem_nil a)

theorem applyRoleFilter_isOk {df : DataFrame} {sel : List String}
    (h : sel = [] ∨ "cleaned_roles" ∈ df.cols) :
    ∃ d, applyRoleFilter df sel = .ok d ∧ d.cols = df.cols := by
  unfold applyRoleFilter
  rcases h with h | h
  · exact ⟨df, by rw [if_pos h], rfl⟩
  · by_cases hs : sel = []
    · exact ⟨df, by rw [if_pos hs], rfl⟩
    · exact ⟨⟨df.cols, df.rows.filter (fun r => roleKeep sel (Row.get r "cleaned_roles"))⟩,
        by rw [if_neg hs, if_pos h], rfl⟩

theorem applyIsinFilter_isOk {col : String} {df : DataFrame} {sel : List String}
    (h : sel = [] ∨ col ∈ df.cols) :
    ∃ d, applyIsinFilter col df sel = .ok d ∧ d.cols = df.cols := by
  unfold applyIsinFilter
  rcases h with h | h
  · exact ⟨df, by rw [if_pos h], rfl⟩
  · by_cases hs : sel = []
    · exact ⟨df, by rw [if_pos hs], rfl⟩
    · exact ⟨⟨df.cols, df.rows.filter (fun r => isinKeep sel (Row.get r col))⟩,
        by rw [if_neg hs, if_pos h], rfl⟩

/-- C6 counterexample: with `cleaned_roles` absent and a non-empty
role selection, the filter engine raises `KeyError` instead of
skipping the dimension; with the empty selection it succeeds, so the
two are not equivalent. -/
theorem C6_counterexample :
    filtered_df demoNoRolesCol selManager = .error "KeyError: cleaned_roles" ∧
    filtered_df demoNoRolesCol emptySel = .ok demoNoRolesCol :=
  ⟨rfl, rfl⟩

/-- C6 (amended): the engine itself has no guard — it cannot fail only
because every selection is drawn from the extracted vocabularies, and
an absent column forces an empty vocabulary, hence an empty selection,
hence a skipped dimension. -/
theorem C6_guarded_by_vocab (df : DataFrame) (sel : Selection)
    (h1 : ∀ t ∈ sel.roles, t ∈ unique_roles df)
    (h2 : ∀ t ∈ sel.industries, t ∈ unique_industries df)
    (h3 : ∀ t ∈ sel.locations, t ∈ unique_locations df)
    (h4 : ∀ t ∈ sel.states, t ∈ unique_states df)
    (h5 : ∀ t ∈ sel.cities, t ∈ unique_cities df) :
    exceptOk (filtered_df df sel) = true ∧
    ("cleaned_roles" ∉ df.cols → sel.roles = []) ∧
    ("gpt_industry" ∉ df.cols → sel.industries = []) ∧
    ("location_clean" ∉ df.cols → sel.locations = []) ∧
    ("state" ∉ df.cols → sel.states = []) ∧
    ("city" ∉ df.cols → sel.cities = []) := by
  have e1 : "cleaned_roles" ∉ df.cols → sel.roles = [] := fun h =>
    sub_nil_eq_nil h1 (multiVocab_absent h)
  have e2 : "gpt_industry" ∉ df.cols → sel.industries = [] := fun h =>
    sub_nil_eq_nil h2 (multiVocab_absent h)
  have e3 : "location_clean" ∉ df.cols → sel.locations = [] := fun h =>
    sub_nil_eq_nil h3 (singleVocab_absent h)
  have e4 : "state" ∉ df.cols → sel.states = [] := fun h =>
    sub_nil_eq_nil h4 (singleVocab_absent h)
  have e5 : "city" ∉ df.cols → sel.cities = [] := fun h =>
    sub_nil_eq_nil h5 (singleVocab_absent h)
  refine ⟨?_, e1, e2, e3, e4, e5⟩
  have g1 : sel.roles = [] ∨ "cleaned_roles" ∈ df.cols := by
    by_cases h : "cleaned_roles" ∈ df.cols
    · exact Or.inr h
    · exact Or.inl (e1 h)
  obtain ⟨d1, k1, c1⟩ := applyRoleFilter_isOk g1
  have g2 : sel.industries = [] ∨ "gpt_industry" ∈ d1.cols := by
    by_cases h : "gpt_industry" ∈ df.cols
    · exact Or.inr (c1 ▸ h)
    · exact Or.inl (e2 h)
  obtain ⟨d2, k2, c2⟩ := applyIsinFilter_isOk g2
  have g3 : sel.locations = [] ∨ "location_clean" ∈ d2.cols := by
    by_cases h : "location_clean" ∈ df.cols
    · exact Or.inr (c2 ▸ c1 ▸ h)
    · exact Or.inl (e3 h)
  obtain ⟨d3, k3, c3⟩ := applyIsinFilter_isOk g3
  have g4 : sel.states = [] ∨ "state" ∈ d3.cols := by
    by_cases h : "state" ∈ df.cols
    · exact Or.inr (c3 ▸ c2 ▸ c1 ▸ h)
    · exact Or.inl (e4 h)
  obtain ⟨d4, k4, c4⟩ := applyIsinFilter_isOk g4
  have g5 : sel.cities = [] ∨ "city" ∈ d4.cols := by
    by_cases h : "city" ∈ df.cols
    · exact Or.inr (c4 ▸ c3 ▸ c2 ▸ c1 ▸ h)
    · exact Or.inl (e5 h)
  obtain ⟨d5, k5, c5⟩ := applyIsinFilter_isOk g5
  have : filtered_df df sel = .ok d5 := by
    unfold filtered_df
    rw [k1, exceptBindOk, k2, exceptBindOk, k3, exceptBindOk, k4, exceptBindOk, k5]
  rw [this]
  rfl

/-- C6 witness: a selection drawn from the extracted vocabulary
filters without failing. -/
theorem C6_witness :
    (∀ t ∈ selManager.roles, t ∈ unique_roles demoTwoRoles) ∧
    exceptOk (filtered_df demoTwoRoles selManager) = true :=
  ⟨by decide,
   (C6_guarded_by_vocab demoTwoRoles selManager (by decide) (by decide) (by decide)
     (by decide) (by decide)).1⟩

theorem selPred_imp {sel1 sel2 : Selection}
    (hr : sel1.roles = sel2.roles ∨ sel1.roles = [])
    (hi : sel1.industries = sel2.industries ∨ sel1.industries = [])
    (hl : sel1.locations = sel2.locations ∨ sel1.locations = [])
    (hs : sel1.states = sel2.states ∨ sel1.states = [])
    (hc : sel1.cities = sel2.cities ∨ sel1.cities = [])
    (r : Row) (h : selPred sel2 r = true) : selPred sel1 r = true := by
  simp only [selPred, Bool.and_eq_true] at h ⊢
  obtain ⟨hc2, hs2, hl2, hi2, hr2⟩ := h
  refine ⟨?_, ?_, ?_, ?_, ?_⟩
  · rcases hc with h | h
    · rw [h]; exact hc2
    · rw [h]; rfl
  · rcases hs with h | h
    · rw [h]; exact hs2
    · rw [h]; rfl
  · rcases hl with h | h
    · rw [h]; exact hl2
    · rw [h]; rfl
  · rcases hi with h | h
    · rw [h]; exact hi2
    · rw [h]; rfl
  · rcases hr with h | h
    · rw [h]; exact hr2
    · rw [h]; rfl

/-- C7 counterexample: enlarging the role selection from
`["Manager"]` to `["Manager", "Engineer"]` (additional selected value)
grows the filtered result from one row to two, so the claimed
inequality fails. -/
theorem C7_counterexample :
    filtered_df demoTwoRoles selManager =
      .ok ⟨["cleaned_roles"], [[("cleaned_roles", Value.vstr "Manager")]]⟩ ∧
    filtered_df demoTwoRoles selManagerEngineer =
      .ok ⟨["cleaned_roles"],
        [[("cleaned_roles", Value.vstr "Manager")],
         [("cleaned_roles", Value.vstr "Engineer")]]⟩ ∧
    ¬ ((2 : Nat) ≤ 1) :=
  ⟨rfl, rfl, by decide⟩

/-- C7 (amended): filtering is monotone in the *dimensions* used —
when one selection keeps each dimension either equal to the other's or
empty, the result with the additional dimensions has at most as many
rows; in particular every successful filtering returns at most the
unfiltered row count. -/
theorem C7_filter_monotonic (df : DataFrame) (sel1 sel2 : Selection)
    (d1 d2 : DataFrame)
    (hr : sel1.roles = sel2.roles ∨ sel1.roles = [])
    (hi : sel1.industries = sel2.industries ∨ sel1.industries = [])
    (hl : sel1.locations = sel2.locations ∨ sel1.locations = [])
    (hs : sel1.states = sel2.states ∨ sel1.states = [])
    (hc : sel1.cities = sel2.cities ∨ sel1.cities = [])
    (h1 : filtered_df df sel1 = .ok d1) (h2 : filtered_df df sel2 = .ok d2) :
    d2.rows.length ≤ d1.rows.length := by
  obtain ⟨-, r1⟩ := filtered_df_ok h1
  obtain ⟨-, r2⟩ := filtered_df_ok h2
  rw [r1, r2]
  exact (List.monotone_filter_right df.rows
    (fun r h => selPred_imp hr hi hl hs hc r h)).length_le

/-- C7 witness: filtering two rows down to one by the `Manager` role
is bounded by the unfiltered row count. -/
theorem C7_witness :
    filtered_df demoTwoRoles emptySel = .ok demoTwoRoles ∧
    filtered_df demoTwoRoles selManager =
      .ok ⟨["cleaned_roles"], [[("cleaned_roles", Value.vstr "Manager")]]⟩ ∧
    (DataFrame.mk ["cleaned_roles"]
      [[("cleaned_roles", Value.vstr "Manager")]]).rows.length ≤
      demoTwoRoles.rows.length :=
  ⟨rfl, rfl,
   C7_filter_monotonic demoTwoRoles emptySel selManager demoTwoRoles
     ⟨["cleaned_roles"], [[("cleaned_roles", Value.vstr "Manager")]]⟩
     (Or.inr rfl) (Or.inr rfl) (Or.inr rfl) (Or.inr rfl) (Or.inr rfl) rfl rfl⟩

theorem exceptMapOk {ε α β : Type} (f : α → β) (a : α) :
    (Except.map f (Except.ok a) : Except ε β) = .ok (f a) := rfl

theorem filterStep_raw {sel : Selection} {s s' : AppState}
    (h : filterStep sel s = .ok s') : s'.raw = s.raw := by
  unfold filterStep at h
  cases hf : filtered_df s.working sel with
  | error e => rw [hf] at h; exact Except.noConfusion h
  | ok d =>
    rw [hf, exceptMapOk] at h
    injection h with h
    rw [← h]

theorem projectStep_raw {s s' : AppState}
    (h : projectStep s = .ok s') : s'.raw = s.raw := by
  unfold projectStep at h
  cases hf : formatPCLink (dropIndustriesClean s.working) with
  | error e => rw [hf] at h; exact Except.noConfusion h
  | ok d =>
    rw [hf, exceptMapOk] at h
    injection h with h
    rw [← h]

/-- C9: whatever sorting algorithm the library supplies, a successful
run of the copy–filter–project–sort pipeline leaves the loaded record
set untouched: the result's raw frame is the input frame, all
mutation happening on the working copy made at `filtered_df =
df.copy()`. -/
theorem C9_raw_preserved (impl : String → Bool → List Row → List Row)
    (df : DataFrame) (sel : Selection) (col : String) (asc : Bool)
    (st : AppState) (h : runPipeline impl df sel col asc = .ok st) :
    st.raw = df := by
  unfold runPipeline at h
  cases h1 : filterStep sel (copyStep ⟨df, df⟩) with
  | error e => rw [h1] at h; exact Except.noConfusion h
  | ok s1 =>
  rw [h1, exceptBindOk] at h
  cases h2 : projectStep s1 with
  | error e => rw [h2] at h; exact Except.noConfusion h
  | ok s2 =>
  rw [h2, exceptBindOk] at h
  unfold sortStep at h
  injection h with h
  rw [← h]
  show s2.raw = df
  rw [projectStep_raw h2, filterStep_raw h1]
  rfl

/-- C9 witness: a concrete run returns the untouched raw frame
alongside the worked copy. -/
theorem C9_witness :
    runPipeline identityImpl demoPool emptySel "pool_size" true =
      .ok ⟨demoPool, demoPool⟩ ∧
    (AppState.mk demoPool demoPool).raw = demoPool :=
  ⟨rfl,
   C9_raw_preserved identityImpl demoPool emptySel "pool_size" true
     ⟨demoPool, demoPool⟩ rfl⟩

theorem splitCommaAux_no_comma :
    ∀ l : List Char, ∀ t ∈ splitCommaAux l, ',' ∉ t := by
  intro l
  induction l with
  | nil =>
    intro t ht
    simp only [splitCommaAux, List.mem_singleton] at ht
    subst ht
    exact List.not_mem_nil ','
  | cons c cs ih =>
    intro t ht
    unfold splitCommaAux at ht
    cases hrec : splitCommaAux cs with
    | nil =>
      rw [hrec] at ht
      simp only [List.mem_singleton] at ht
      subst ht
      exact List.not_mem_nil ','
    | cons t0 ts =>
      rw [hrec] at ht
      change t ∈ (if c = ',' then [] :: t0 :: ts else (c :: t0) :: ts) at ht
      by_cases hc : c = ','
      · rw [if_pos hc] at ht
        rcases List.mem_cons.mp ht with h | h
        · subst h; exact List.not_mem_nil ','
        · exact ih t (hrec ▸ h)
      · rw [if_neg hc] at ht
        rcases List.mem_cons.mp ht with h | h
        · subst h
          intro hmem
          rcases List.mem_cons.mp hmem with h | h
          · exact hc h.symm
          · exact ih t0 (hrec ▸ List.mem_cons_self t0 ts) h
        · exact ih t (hrec ▸ List.mem_cons_of_mem t0 h)

theorem trimChars_subset (l : List Char) : trimChars l ⊆ l := by
  intro c hc
  unfold trimChars at hc
  rw [List.mem_reverse] at hc
  have h1 := (List.dropWhile_sublist Char.isWhitespace).subset hc
  rw [List.mem_reverse] at h1
  exact (List.dropWhile_sublist Char.isWhitespace).subset h1

theorem token_no_comma {cell t : String}
    (ht : t ∈ (splitComma cell).map pyStrip) : ',' ∉ t.data := by
  rcases List.mem_map.mp ht with ⟨u, hu, hts⟩
  rcases List.mem_map.mp hu with ⟨lc, hlc, huc⟩
  subst hts
  intro hmem
  have h1 : ',' ∈ trimChars u.data := hmem
  have h2 : ',' ∈ u.data := trimChars_subset u.data h1
  subst huc
  exact splitCommaAux_no_comma cell.data lc hlc h2

/-- C10: vocabulary/filter mismatch — a row whose `gpt_industry` cell
is a multi-token comma-separated string is never retained when the
selection consists of tokens the extractor split out of that cell,
because the `isin` filter compares the raw cell while the tokens are
comma-free. -/
theorem C10_industry_mismatch (df d : DataFrame) (sel : List String)
    (cell : String) (r : Row)
    (hsel : sel ≠ [])
    (hcomma : ',' ∈ cell.data)
    (htok : ∀ t ∈ sel, t ∈ (splitComma cell).map pyStrip)
    (hcell : Row.get r "gpt_industry" = Value.vstr cell)
    (hok : applyIsinFilter "gpt_industry" df sel = .ok d) :
    r ∉ d.rows := by
  obtain ⟨-, hrows⟩ := applyIsinFilter_ok hok
  rw [hrows]
  intro hmem
  obtain ⟨-, hkeep⟩ := List.mem_filter.mp hmem
  have hin : isinKeep sel (Row.get r "gpt_industry") = true := by
    unfold isinPred at hkeep
    rcases Bool.or_eq_true_iff.mp hkeep with h | h
    · exact absurd (List.isEmpty_iff.mp h) hsel
    · exact h
  rw [hcell] at hin
  have hmemsel : cell ∈ sel := by
    simpa [isinKeep] using hin
  exact token_no_comma (htok cell hmemsel) hcomma

/-- C10 witness: the cell `"Tech, Retail"` is dropped when the
selection is the extracted token `["Tech"]`. -/
theorem C10_witness :
    (["Tech"] ≠ ([] : List String)) ∧
    (',' ∈ "Tech, Retail".data) ∧
    (∀ t ∈ ["Tech"], t ∈ (splitComma "Tech, Retail").map pyStrip) ∧
    Row.get demoMultiIndustryRow "gpt_industry" = Value.vstr "Tech, Retail" ∧
    applyIsinFilter "gpt_industry" demoMultiIndustry ["Tech"] =
      .ok ⟨["gpt_industry"], []⟩ ∧
    demoMultiIndustryRow ∉ (DataFrame.mk ["gpt_industry"] ([] : List Row)).rows :=
  ⟨by decide, by decide, by decide, rfl, rfl,
   C10_industry_mismatch demoMultiIndustry ⟨["gpt_industry"], []⟩ ["Tech"]
     "Tech, Retail" demoMultiIndustryRow (by decide) (by decide) (by decide) rfl rfl⟩

theorem strLeChars_total : ∀ a b : List Char,
    strLeChars a b = true ∨ strLeChars b a = true := by
  intro a
  induction a with
  | nil => intro b; exact Or.inl rfl
  | cons x xs ih =>
    intro b
    cases b with
    | nil => exact Or.inr rfl
    | cons y ys =>
      simp only [strLeChars]
      by_cases hxy : x.toNat < y.toNat
      · exact Or.inl (by rw [if_pos hxy])
      · by_cases hyx : y.toNat < x.toNat
        · exact Or.inr (by rw [if_pos hyx])
        · rcases ih ys with h | h
          · exact Or.inl (by rw [if_neg hxy, if_neg hyx]; exact h)
          · exact Or.inr (by rw [if_neg hyx, if_neg hxy]; exact h)

theorem strLeChars_trans : ∀ a b c : List Char,
    strLeChars a b = true → strLeChars b c = true → strLeChars a c = true := by
  intro a
  induction a with
  | nil => intro b c _ _; rfl
  | cons x xs ih =>
    intro b c h1 h2
    cases b with
    | nil => exact absurd h1 (by simp [strLeChars])
    | cons y ys =>
      cases c with
      | nil => exact absurd h2 (by simp [strLeChars])
      | cons z zs =>
        simp only [strLeChars] at h1 h2 ⊢
        by_cases hxy : x.toNat < y.toNat
        · by_cases hyz : y.toNat < z.toNat
          · rw [if_pos (Nat.lt_trans hxy hyz)]
          · by_cases hzy : z.toNat < y.toNat
            · rw [if_neg hyz, if_pos hzy] at h2
              exact absurd h2 (by simp)
            · have heq : y.toNat = z.toNat := by omega
              rw [if_pos (heq ▸ hxy)]
        · by_cases hyx : y.toNat < x.toNat
          · rw [if_neg hxy, if_pos hyx] at h1
            exact absurd h1 (by simp)
          · have hexy : x.toNat = y.toNat := by omega
            rw [if_neg hxy, if_neg hyx] at h1
            by_cases hyz : y.toNat < z.toNat
            · rw [if_pos (hexy ▸ hyz)]
            · by_cases hzy : z.toNat < y.toNat
              · rw [if_neg hyz, if_pos hzy] at h2
                exact absurd h2 (by simp)
              · have heyz : y.toNat = z.toNat := by omega
                have hxz : ¬ x.toNat < z.toNat := by omega
                have hzx : ¬ z.toNat < x.toNat := by omega
                rw [if_neg hyz, if_neg hzy] at h2
                rw [if_neg hxz, if_neg hzx]
                exact ih ys zs h1 h2

theorem multiVocab_char (df : DataFrame) (col : String) :
    (∀ s : String, s ∈ multiVocab df col ↔ (col ∈ df.cols ∧
       ∃ c ∈ dropnaStr (colVals df col), s ∈ (splitComma c).map pyStrip)) ∧
    (multiVocab df col).Pairwise (fun a b => strLe a b = true) ∧
    (multiVocab df col).Nodup := by
  haveI instTot : IsTotal String (fun a b => strLe a b = true) :=
    ⟨fun a b => strLeChars_total a.data b.data⟩
  haveI instTr : IsTrans String (fun a b => strLe a b = true) :=
    ⟨fun a b c h1 h2 => strLeChars_trans a.data b.data c.data h1 h2⟩
  by_cases hc : col ∈ df.cols
  · unfold multiVocab
    rw [if_pos hc]
    unfold sortedStrings
    refine ⟨?_, List.sorted_insertionSort _ _, ?_⟩
    · intro s
      rw [(List.perm_insertionSort _ _).mem_iff, List.mem_dedup]
      simp only [List.mem_map, List.mem_flatMap]
      constructor
      · rintro ⟨u, ⟨c, hcm, hu⟩, hus⟩
        exact ⟨hc, c, hcm, u, hu, hus⟩
      · rintro ⟨-, c, hcm, u, hu, hus⟩
        exact ⟨u, ⟨c, hcm, hu⟩, hus⟩
    · exact ((List.perm_insertionSort _ _).nodup_iff).mpr (List.nodup_dedup _)
  · rw [multiVocab_absent hc]
    refine ⟨?_, List.Pairwise.nil, List.nodup_nil⟩
    intro s
    simp [hc]

/-- C5 counterexample: the code's vocabulary keeps empty tokens — the
cell `"Tech,"` yields `["", "Tech"]`, while the claim's "distinct
non-empty tokens" would give `["Tech"]`. -/
theorem C5_counterexample :
    unique_roles demoTrailingComma = ["", "Tech"] ∧
    specMultiVocab demoTrailingComma "cleaned_roles" = ["Tech"] ∧
    unique_roles demoTrailingComma ≠
      specMultiVocab demoTrailingComma "cleaned_roles" :=
  ⟨rfl, rfl, by decide⟩

/-- C5 (amended): the vocabulary of `cleaned_roles` and of
`gpt_industry` is the ascending, duplicate-free sequence of the
trimmed comma-split tokens of the non-missing cells — including empty
tokens; an absent column yields the empty vocabulary. -/
theorem C5_vocabulary (df : DataFrame) :
    (∀ s : String, s ∈ unique_roles df ↔ ("cleaned_roles" ∈ df.cols ∧
       ∃ c ∈ dropnaStr (colVals df "cleaned_roles"),
         s ∈ (splitComma c).map pyStrip)) ∧
    (∀ s : String, s ∈ unique_industries df ↔ ("gpt_industry" ∈ df.cols ∧
       ∃ c ∈ dropnaStr (colVals df "gpt_industry"),
         s ∈ (splitComma c).map pyStrip)) ∧
    (unique_roles df).Pairwise (fun a b => strLe a b = true) ∧
    (unique_industries df).Pairwise (fun a b => strLe a b = true) ∧
    (unique_roles df).Nodup ∧ (unique_industries df).Nodup := by
  obtain ⟨m1, p1, n1⟩ := multiVocab_char df "cleaned_roles"
  obtain ⟨m2, p2, n2⟩ := multiVocab_char df "gpt_industry"
  exact ⟨m1, m2, p1, p2, n1, n2⟩

theorem getAppendKey (c : String) (v : Value) :
    ∀ l : Row, (∀ p ∈ l, p.1 ≠ c) → Row.get (l ++ [(c, v)]) c = v := by
  intro l
  induction l with
  | nil =>
    intro _
    unfold Row.get
    simp [List.find?]
  | cons p ps ih =>
    intro h
    unfold Row.get
    rw [List.cons_append, List.find?_cons_of_neg]
    · exact ih (fun x hx => h x (List.mem_cons_of_mem p hx))
    · simp only [beq_iff_eq]
      exact fun hx => (h p (List.mem_cons_self p ps)) hx

theorem rowGetSet (r : Row) (c : String) (v : Value) :
    Row.get (Row.set r c v) c = v := by
  unfold Row.set
  apply getAppendKey
  intro p hp
  have := List.of_mem_filter hp
  simpa using this

theorem mapRowsPC_ok : ∀ {rows : List Row},
    (∀ r ∈ rows, notNum (Row.get r "PC URL") = true) →
    mapRowsPC rows = .ok (rows.map (fun r =>
      Row.set (r.filter (fun p => p.1 ≠ "PC URL")) "PC Link"
        (pcLinkPure (Row.get r "PC URL")))) := by
  intro rows
  induction rows with
  | nil => intro _; rfl
  | cons r rs ih =>
    intro h
    have hr := h r (List.mem_cons_self r rs)
    have hrow : pcLinkRow r = .ok (Row.set (r.filter (fun p => p.1 ≠ "PC URL"))
        "PC Link" (pcLinkPure (Row.get r "PC URL"))) := by
      unfold pcLinkRow
      cases hx : Row.get r "PC URL" with
      | vstr s => rfl
      | vnum n => rw [hx] at hr; exact absurd hr (by simp [notNum])
      | vnull => rfl
    unfold mapRowsPC
    rw [hrow, exceptBindOk, ih (fun x hx => h x (List.mem_cons_of_mem r hx)),
      exceptBindOk]
    rfl

theorem zipMapPC : ∀ (l : List Row) (pr : Row × Row),
    pr ∈ (l.map (fun r => Row.set (r.filter (fun p => p.1 ≠ "PC URL")) "PC Link"
      (pcLinkPure (Row.get r "PC URL")))).zip l →
    Row.get pr.1 "PC Link" = pcLinkPure (Row.get pr.2 "PC URL") := by
  intro l
  induction l with
  | nil =>
    intro pr hpr
    exact absurd hpr (List.not_mem_nil pr)
  | cons r rs ih =>
    intro pr hpr
    rw [List.map_cons, List.zip_cons_cons] at hpr
    rcases List.mem_cons.mp hpr with h | h
    · subst h
      exact rowGetSet _ _ _
    · exact ih pr h

/-- C8 counterexample: a non-missing non-string `PC URL` cell makes
the derivation raise `AttributeError` (the lambda calls
`x.startswith`), so no projected set exists for that record set. -/
theorem C8_counterexample :
    formatPCLink demoNumURL =
      .error "AttributeError: object has no attribute startswith" := rfl

/-- C8 (amended): when every `PC URL` cell is a string or missing, the
projection succeeds, drops `PC URL`, adds `PC Link`, and each row's
`PC Link` is the cell when it is non-missing and starts with `http`,
else the empty string; a non-missing non-string cell instead raises. -/
theorem C8_pclink (df : DataFrame) (hcol : "PC URL" ∈ df.cols)
    (hcells : ∀ r ∈ df.rows, notNum (Row.get r "PC URL") = true) :
    ∃ d, formatPCLink df = .ok d ∧
      "PC URL" ∉ d.cols ∧ "PC Link" ∈ d.cols ∧
      d.rows.length = df.rows.length ∧
      ∀ pr ∈ d.rows.zip df.rows,
        Row.get pr.1 "PC Link" = pcLinkPure (Row.get pr.2 "PC URL") := by
  refine ⟨⟨((if "PC Link" ∈ df.cols then df.cols else df.cols ++ ["PC Link"]).filter
      (fun c => c ≠ "PC URL")),
      df.rows.map (fun r => Row.set (r.filter (fun p => p.1 ≠ "PC URL")) "PC Link"
        (pcLinkPure (Row.get r "PC URL")))⟩, ?_, ?_, ?_, ?_, ?_⟩
  · unfold formatPCLink
    rw [if_pos hcol, mapRowsPC_ok hcells, exceptBindOk]
    rfl
  · intro hmem
    have := List.of_mem_filter hmem
    simp at this
  · apply List.mem_filter.mpr
    constructor
    · by_cases hPL : "PC Link" ∈ df.cols
      · rw [if_pos hPL]
        exact hPL
      · rw [if_neg hPL]
        exact List.mem_append_right _ (List.mem_singleton.mpr rfl)
    · simp
  · exact List.length_map _ _
  · intro pr hpr
    exact zipMapPC df.rows pr hpr

/-- C8 witness: on a record set with string and missing `PC URL`
cells, the projection derives `PC Link` values and drops `PC URL`. -/
theorem C8_witness :
    ("PC URL" ∈ demoStrURL.cols) ∧
    (∀ r ∈ demoStrURL.rows, notNum (Row.get r "PC URL") = true) ∧
    (∃ d, formatPCLink demoStrURL = .ok d ∧
      "PC URL" ∉ d.cols ∧ "PC Link" ∈ d.cols ∧
      d.rows.length = demoStrURL.rows.length ∧
      ∀ pr ∈ d.rows.zip demoStrURL.rows,
        Row.get pr.1 "PC Link" = pcLinkPure (Row.get pr.2 "PC URL")) :=
  ⟨by decide, by decide, C8_pclink demoStrURL (by decide) (by decide)⟩

end ICP
